import Mathlib

set_option maxHeartbeats 1000000

/-!
Verification of the aws-guardrails-cac-solution glue components, shallowly
embedded in Lean 4.

Sources embedded:
* terraform/lambdas/aws_s3_csv_to_slack/app.py : latest-CSV locator, CSV
  finding extractor, retry helper, Slack notifier gating, result shaping.
* dashboard/app.py : multiselect state normalisation.
* src/lambda/aws_lambda_permissions_setup : only the test file is present in
  the repository snapshot, so the permission lambda itself (get_accounts,
  apply_lambda_permissions, lambda_handler) is modelled from the
  specification, as marked on each such definition.

External effects (AWS API calls, HTTP requests, time.sleep) are modelled by
explicit inputs (response sequences, per-attempt outcome functions) and by
explicit traces in the results (attempt lists, sleep-duration lists, webhook
request counts). Python str.strip is embedded as pyStrip below.
-/

/-- Python str.strip, restricted to the core whitespace characters and
implemented structurally over the character list (String.trim is not
kernel-reducible): drop whitespace from the front, then from the back. -/
def pyStrip (s : String) : String :=
  { data := ((s.data.dropWhile Char.isWhitespace).reverse.dropWhile
      Char.isWhitespace).reverse }

namespace S3Csv

/-- One CSV row as produced by csv.DictReader in the source; a column missing
from the file is represented by the empty string, mirroring
row.get(column, "") in parse_csv_for_non_compliant. -/
structure Row where
  accountId : String
  guardrail : String
  controlName : String
  resourceType : String
  resourceArn : String
  compliance : String
  deriving DecidableEq

/-- One extracted non-compliant item: the dict built inside the row loop of
parse_csv_for_non_compliant, with every field stripped. -/
structure Finding where
  accountId : String
  guardrail : String
  controlName : String
  resourceType : String
  resourceArn : String
  deriving DecidableEq

/-- The body of the row loop of parse_csv_for_non_compliant
(terraform/lambdas/aws_s3_csv_to_slack/app.py, lines 126-142): keep a row
when its stripped compliance equals "NON_COMPLIANT" and the stripped
accountId and controlName are both non-empty. -/
def rowToFinding (row : Row) : Option Finding :=
  if pyStrip row.compliance = "NON_COMPLIANT" then
    let item : Finding :=
      { accountId := pyStrip row.accountId
        guardrail := pyStrip row.guardrail
        controlName := pyStrip row.controlName
        resourceType := pyStrip row.resourceType
        resourceArn := pyStrip row.resourceArn }
    if item.accountId ≠ "" ∧ item.controlName ≠ "" then some item else none
  else none

/-- parse_csv_for_non_compliant from the source, with the S3 download made
explicit: the function is applied to the already-decoded list of CSV rows and
returns the accumulated non_compliant_items in row order. -/
def parse_csv_for_non_compliant (rows : List Row) : List Finding :=
  rows.filterMap rowToFinding

/-- Specification-side row predicate: stripped compliance is exactly
"NON_COMPLIANT" and stripped accountId and controlName are non-empty. -/
def keepRow (r : Row) : Bool :=
  pyStrip r.compliance == "NON_COMPLIANT" &&
    pyStrip r.accountId != "" && pyStrip r.controlName != ""

/-- Specification-side projection of a row to a finding with every field
stripped of surrounding whitespace. -/
def findingOf (r : Row) : Finding :=
  { accountId := pyStrip r.accountId
    guardrail := pyStrip r.guardrail
    controlName := pyStrip r.controlName
    resourceType := pyStrip r.resourceType
    resourceArn := pyStrip r.resourceArn }

/-- One entry of the list_objects_v2 Contents array, reduced to the two
fields the source reads; LastModified timestamps are totally ordered and
embedded as naturals. -/
structure S3Object where
  Key : String
  LastModified : Nat
  deriving DecidableEq

/-- The Python builtin max over a non-empty list with a key function, applied
as in get_latest_csv_file: scan left to right keeping the current best,
replacing it only on a strictly larger LastModified, so ties keep the first
maximum encountered. -/
def pyMax (best : S3Object) : List S3Object → S3Object
  | [] => best
  | o :: rest => pyMax (if best.LastModified < o.LastModified then o else best) rest

/-- get_latest_csv_file from the source, with the list_objects_v2 response
made explicit: none stands for a response without a Contents key, some objs
for a response whose Contents array is objs. Filters to keys ending in
".csv" and returns the key of the most recently modified one, or none. -/
def get_latest_csv_file (contents : Option (List S3Object)) : Option String :=
  match contents with
  | none => none
  | some objs =>
    let csv_files := objs.filter (fun o => ".csv".data.isSuffixOf o.Key.data)
    match csv_files with
    | [] => none
    | x :: xs => some (pyMax x xs).Key

/-- An AWS error as classified by safe_aws_call: a botocore ClientError
carrying an error code, or a BotoCoreError. -/
inductive AwsError where
  | clientError (code : String)
  | botoCoreError (msg : String)
  deriving DecidableEq

/-- Outcome of one attempted call of the wrapped AWS operation. -/
inductive CallResult (α : Type) where
  | ok (v : α)
  | err (e : AwsError)

/-- MAX_RETRIES from the module-level config dict of the source. -/
def MAX_RETRIES : Nat := 3

/-- The attempt loop of safe_aws_call over the remaining attempt numbers
(Python: for attempt in range(1, MAX_RETRIES + 1)). The wrapped operation is
a function from the attempt number to that attempt, so each loop iteration
calls it once. The result records, in order: the returned value or raised
error (none when the loop falls through, which cannot happen for a positive
retry budget); the list of attempt numbers on which the operation was
called; and the list of time.sleep durations executed in the loop (the
source initialises delay = 1 but contains no sleep call, so no iteration
contributes a duration). -/
def safe_aws_call_go {α : Type} (fn : Nat → CallResult α) :
    List Nat → Option (Except AwsError α) × List Nat × List Nat
  | [] => (none, [], [])
  | attempt :: rest =>
    match fn attempt with
    | .ok v => (some (.ok v), [attempt], [])
    | .err (.clientError code) =>
      if code = "AccessDeniedException" then
        (some (.error (.clientError code)), [attempt], [])
      else if attempt = MAX_RETRIES then
        (some (.error (.clientError code)), [attempt], [])
      else
        let r := safe_aws_call_go fn rest
        (r.1, attempt :: r.2.1, r.2.2)
    | .err (.botoCoreError msg) =>
      if attempt = MAX_RETRIES then
        (some (.error (.botoCoreError msg)), [attempt], [])
      else
        let r := safe_aws_call_go fn rest
        (r.1, attempt :: r.2.1, r.2.2)

/-- safe_aws_call from the source: run the attempt loop for attempt numbers
1 .. MAX_RETRIES. -/
def safe_aws_call {α : Type} (fn : Nat → CallResult α) :
    Option (Except AwsError α) × List Nat × List Nat :=
  safe_aws_call_go fn (List.range' 1 MAX_RETRIES)

/-- The gating logic of send_to_slack (source lines 193-203): drop findings
whose stripped resourceType is the organization-account pseudo-type
"AWS::::Account"; when nothing remains, return before building the message.
The result is the number of webhook HTTP requests performed. -/
def send_to_slack (non_compliant_items : List Finding) : Nat :=
  let filtered_items :=
    non_compliant_items.filter (fun item => pyStrip item.resourceType != "AWS::::Account")
  if filtered_items = [] then 0 else 1

/-- Return value of process_s3_csv_to_slack, reduced to the fields the
claims are about. -/
inductive ProcResult where
  | no_files
  | success (csv_file : String) (non_compliant_count : Nat)
      (non_compliant_items : List Finding)
  deriving DecidableEq

/-- process_s3_csv_to_slack from the source, with the S3 interactions made
explicit: contents is the bucket listing fed to get_latest_csv_file and body
maps an object key to its decoded CSV rows. On success the result carries
the processed key, the total count of extracted findings, and the first 100
findings (non_compliant_items[:100]). -/
def process_s3_csv_to_slack (contents : Option (List S3Object))
    (body : String → List Row) : ProcResult :=
  match get_latest_csv_file contents with
  | none => .no_files
  | some key =>
    let items := parse_csv_for_non_compliant (body key)
    .success key items.length (items.take 100)

end S3Csv

namespace Dashboard

/-- remove_all_from_multiselect from dashboard/app.py, as a function on the
stored selection list for one filter key (st.session_state.get(key, []), so
an absent key is the empty list). An empty selection resets to the single
entry "All"; a selection containing "All" together with other entries drops
every "All"; anything else is left unchanged. -/
def remove_all_from_multiselect (selected : List String) : List String :=
  if selected = [] then ["All"]
  else if "All" ∈ selected ∧ 1 < selected.length then
    selected.filter (fun v => v != "All")
  else selected

end Dashboard

namespace Permissions

/-- An organization account as returned by organizations list_accounts,
with the three fields the test fixtures carry. -/
structure Account where
  Id : String
  Status : String
  Name : String
  deriving DecidableEq

/-- One response of the paginated list_accounts endpoint as consumed by the
account lister: a page of accounts with an optional continuation token, a
ClientError carrying its error code, or an empty/absent response (the mocked
None return). -/
inductive ListResp where
  | ok (accounts : List Account) (nextToken : Option String)
  | clientError (code : String)
  | absent

/-- Modelled from the spec: the pagination loop of get_accounts
(aws_lambda_permissions_setup/app.py is absent from the snapshot; only its
tests are present). The loop consumes successive endpoint responses,
accumulating pages until a response has no continuation token; a throttling
ClientError (code TooManyRequestsException) is retried after a fixed backoff
so the same page is neither skipped nor duplicated; any non-throttling
ClientError or an empty/absent response makes the lister return an empty
sequence instead of raising. An exhausted response list ends the pagination
with the accounts accumulated so far. -/
def get_accounts_go : List ListResp → List Account → List Account
  | [], acc => acc
  | r :: rest, acc =>
    match r with
    | .ok accounts none => acc ++ accounts
    | .ok accounts (some _) => get_accounts_go rest (acc ++ accounts)
    | .clientError code =>
      if code = "TooManyRequestsException" then get_accounts_go rest acc else []
    | .absent => []

/-- Modelled from the spec: get_accounts runs the pagination loop on the
sequence of endpoint responses with an empty accumulator. -/
def get_accounts (responses : List ListResp) : List Account :=
  get_accounts_go responses []

/-- One statement of the resource-based policy of the target function,
reduced to the two fields the coverage check reads: the statement id and the
AWS:SourceAccount condition value. -/
structure Statement where
  sid : String
  sourceAccount : Option String
  deriving DecidableEq

/-- Outcome of one add_permission attempt for one account: a success
response that does or does not carry the expected Statement confirmation
field, a throttling error, or any other ClientError. -/
inductive AddOutcome where
  | ok (hasStatement : Bool)
  | throttle
  | apiError (code : String)

/-- The external world of one reconciler invocation: the OrganizationName
prefix from the environment, the current resource policy of the target
function (none models the expected ResourceNotFoundException of get_policy,
treated as an empty statement list), and the outcome of the add_permission
call for a given account id at a given attempt number. -/
structure ReconEnv where
  pfx : String
  policy : Option (List Statement)
  addResult : String → Nat → AddOutcome

/-- Modelled from the spec: the per-account statement id, derived from the
name prefix and the account id. -/
def sidFor (pfx acctId : String) : String := pfx ++ acctId

/-- Modelled from the spec: an account is already covered by a policy
statement when some existing statement matches it by statement ID or by the
source-account condition. -/
def coveredBy (pfx : String) (stmts : List Statement) (a : Account) : Bool :=
  stmts.any (fun s => s.sid == sidFor pfx a.Id || s.sourceAccount == some a.Id)

/-- Modelled from the spec: the retry budget of one add_permission call
(a small constant number of attempts with a fixed backoff between them). -/
def ADD_ATTEMPTS : Nat := 3

/-- Modelled from the spec: the add-with-retry loop for one account. A
success response carrying the Statement confirmation field succeeds; a
success response missing it is a permanent failure, exactly like a
non-throttling ClientError; a throttling error backs off and retries the
same account until the attempt budget is exhausted, which is then a
permanent failure. The second component records the (account id, attempt)
add_permission calls performed. -/
def try_add_go (env : ReconEnv) (acctId : String) :
    Nat → Nat → Bool × List (String × Nat)
  | attempt, 0 =>
    match env.addResult acctId attempt with
    | .ok true => (true, [(acctId, attempt)])
    | .ok false => (false, [(acctId, attempt)])
    | .apiError _ => (false, [(acctId, attempt)])
    | .throttle => (false, [(acctId, attempt)])
  | attempt, fuel + 1 =>
    match env.addResult acctId attempt with
    | .ok true => (true, [(acctId, attempt)])
    | .ok false => (false, [(acctId, attempt)])
    | .apiError _ => (false, [(acctId, attempt)])
    | .throttle =>
      let r := try_add_go env acctId (attempt + 1) fuel
      (r.1, (acctId, attempt) :: r.2)

/-- Modelled from the spec: attempt to grant one account its permission
statement, starting at attempt 1 with the remaining retry budget. -/
def try_add (env : ReconEnv) (a : Account) : Bool × List (String × Nat) :=
  try_add_go env a.Id 1 (ADD_ATTEMPTS - 1)

/-- Modelled from the spec: the accounts of the current listing not yet
covered by the existing policy statements. -/
def toAddList (env : ReconEnv) (accounts : List Account) : List Account :=
  accounts.filter (fun a => !(coveredBy env.pfx (env.policy.getD []) a))

/-- Modelled from the spec: apply_lambda_permissions for a given account
listing. Returns 0 with no add calls for an empty listing; otherwise
attempts every not-yet-covered account (permanent failures do not stop the
remaining accounts) and returns 1 when every account was already covered or
received its statement, and -1 when at least one account hit a permanent
failure. The second component is the trace of add_permission calls. -/
def apply_lambda_permissions (env : ReconEnv) (accounts : List Account) :
    Int × List (String × Nat) :=
  if accounts.isEmpty then (0, [])
  else
    let results := (toAddList env accounts).map (fun a => try_add env a)
    (if results.all (fun r => r.1) then 1 else -1,
      (results.map (fun r => r.2)).flatten)

/-- Modelled from the spec: the statement that a successful add_permission
call installs for an account: the per-account statement id together with a
source-account condition on that account id. -/
def statementFor (pfx : String) (a : Account) : Statement :=
  { sid := sidFor pfx a.Id, sourceAccount := some a.Id }

/-- Modelled from the spec: the resource policy after a reconciler run: the
previous statements followed by one new statement per uncovered account
whose add call succeeded. -/
def policyAfter (env : ReconEnv) (accounts : List Account) : List Statement :=
  env.policy.getD [] ++
    ((toAddList env accounts).filter (fun a => (try_add env a).1)).map
      (fun a => statementFor env.pfx a)

/-- The two CloudFormation callback status literals of cfnresponse. -/
inductive CfnStatus where
  | SUCCESS
  | FAILED
  deriving DecidableEq

/-- Modelled from the spec: the routing of lambda_handler over the event
RequestType, given the outcome the reconciler returns when invoked. The
result records the callback status sent (none when no callback is sent, as
for the scheduled Cron trigger) and whether the reconciler was invoked.
Create and Update run the reconciler and map its outcome to the callback
status; Delete reports success without running it; Cron runs it with no
callback; any other request type reports failure without running it. -/
def lambda_handler (requestType : String) (outcome : Int) :
    Option CfnStatus × Bool :=
  if requestType = "Create" ∨ requestType = "Update" then
    (some (if outcome = -1 then .FAILED else .SUCCESS), true)
  else if requestType = "Delete" then (some .SUCCESS, false)
  else if requestType = "Cron" then (none, true)
  else (some .FAILED, false)

end Permissions

namespace Witness

/-- A concrete well-formed CSV row used by witnesses. -/
def row0 : S3Csv.Row :=
  { accountId := "111122223333"
    guardrail := "gr-01"
    controlName := "AC-1"
    resourceType := "AWS::S3::Bucket"
    resourceArn := "arn:aws:s3:::bucket-x"
    compliance := "NON_COMPLIANT" }

/-- The finding extracted from row0. -/
def f0 : S3Csv.Finding :=
  { accountId := "111122223333"
    guardrail := "gr-01"
    controlName := "AC-1"
    resourceType := "AWS::S3::Bucket"
    resourceArn := "arn:aws:s3:::bucket-x" }

/-- A concrete bucket listing with one CSV object, for process witnesses. -/
def contentsEx : Option (List S3Csv.S3Object) := some [{ Key := "r.csv", LastModified := 1 }]

/-- A concrete body map: every key decodes to 101 copies of row0. -/
def bodyEx : String → List S3Csv.Row := fun _ => List.replicate 101 row0

/-- A concrete bucket listing with two CSV objects and one non-CSV object,
the second CSV object being the most recently modified. -/
def objsEx : List S3Csv.S3Object :=
  [{ Key := "a.csv", LastModified := 5 },
   { Key := "notes.txt", LastModified := 99 },
   { Key := "b.csv", LastModified := 9 }]

/-- A wrapped AWS operation that throttles on the first attempt and
succeeds on the second: used to exhibit that a retried call sleeps zero
times. -/
def fnThrottleOnce : Nat → S3Csv.CallResult Nat :=
  fun attempt => if attempt = 1 then .err (.clientError "ThrottlingException") else .ok 42

/-- A wrapped AWS operation that hits a BotoCoreError on the first attempt
and succeeds on the second. -/
def fnBotoOnce : Nat → S3Csv.CallResult Nat :=
  fun attempt => if attempt = 1 then .err (.botoCoreError "timeout") else .ok 7

/-- A concrete reconciler environment: empty policy (get_policy not found),
every add_permission call succeeding with the Statement field present. -/
def envOk : Permissions.ReconEnv :=
  { pfx := "testorg-"
    policy := none
    addResult := fun _ _ => .ok true }

/-- A concrete single-account listing. -/
def accountsEx : List Permissions.Account :=
  [{ Id := "123456789012", Status := "ACTIVE", Name := "Account1" }]

/-- A concrete response sequence whose first listing call is denied. -/
def responsesDenied : List Permissions.ListResp :=
  [Permissions.ListResp.clientError "AccessDeniedException"]

/-- A concrete finding whose resource type is the organization-account
pseudo-type. -/
def acctFinding : S3Csv.Finding :=
  { accountId := "111122223333"
    guardrail := "gr-01"
    controlName := "AC-1"
    resourceType := "AWS::::Account"
    resourceArn := "arn:aws:iam::111122223333" }

end Witness

/-- The loop body keeps a row exactly when keepRow holds, and then emits the
fully trimmed finding. -/
theorem rowToFinding_eq_ite (r : S3Csv.Row) :
    S3Csv.rowToFinding r =
      if S3Csv.keepRow r then some (S3Csv.findingOf r) else none := by
  unfold S3Csv.rowToFinding S3Csv.keepRow S3Csv.findingOf
  by_cases h1 : pyStrip r.compliance = "NON_COMPLIANT" <;>
    by_cases h2 : pyStrip r.accountId = "" <;>
      by_cases h3 : pyStrip r.controlName = "" <;>
        simp [h1, h2, h3]

/-- C6: parse_csv_for_non_compliant returns exactly the rows whose compliance
column trims to the literal "NON_COMPLIANT" and whose trimmed accountId and
controlName are both non-empty; every output field is trimmed, and findings
keep the order of their rows in the source file. -/
theorem claim_C6_parse_csv_exact (rows : List S3Csv.Row) :
    S3Csv.parse_csv_for_non_compliant rows =
      (rows.filter S3Csv.keepRow).map S3Csv.findingOf := by
  induction rows with
  | nil => rfl
  | cons r rest ih =>
    show (r :: rest).filterMap S3Csv.rowToFinding = _
    rw [List.filterMap_cons, List.filter_cons, rowToFinding_eq_ite]
    by_cases hk : S3Csv.keepRow r
    · simpa [hk] using ih
    · simpa [hk] using ih

/-- C10 counterexample: on the prior selection state consisting of two
copies of "All", remove_all_from_multiselect stores the empty selection, so
the stored selection is not non-empty as the claim states for every prior
state. -/
theorem claim_C10_counterexample :
    Dashboard.remove_all_from_multiselect ["All", "All"] = [] := by decide

/-- C10 as amended: for every prior selection state in which "All" occurs at
most once (which is every state a multiselect widget over distinct options
can store), after remove_all_from_multiselect runs the stored selection is
non-empty, and if it contains "All" then it is exactly the singleton
selection of "All". -/
theorem claim_C10_multiselect_invariant (sel : List String)
    (h : sel.count "All" ≤ 1) :
    Dashboard.remove_all_from_multiselect sel ≠ [] ∧
      ("All" ∈ Dashboard.remove_all_from_multiselect sel →
        Dashboard.remove_all_from_multiselect sel = ["All"]) := by
  unfold Dashboard.remove_all_from_multiselect
  by_cases h0 : sel = []
  · simp [h0]
  · by_cases hA : "All" ∈ sel ∧ 1 < sel.length
    · simp only [if_neg h0, if_pos hA]
      constructor
      · obtain ⟨hmem, hlen⟩ := hA
        have hex : ∃ x ∈ sel, x ≠ "All" := by
          by_contra hall
          push_neg at hall
          have hcnt : sel.count "All" = sel.length :=
            List.count_eq_length.mpr (fun b hb => (hall b hb).symm)
          omega
        obtain ⟨x, hx, hxne⟩ := hex
        have hxf : x ∈ sel.filter (fun v => v != "All") := by
          simp [List.mem_filter, hx, hxne]
        exact List.ne_nil_of_mem hxf
      · intro hmem2
        exfalso
        simp [List.mem_filter] at hmem2
    · simp only [if_neg h0, if_neg hA]
      refine ⟨h0, ?_⟩
      intro hmem
      push_neg at hA
      have hlen : sel.length ≤ 1 := by
        have := hA hmem
        omega
      obtain ⟨a, rest, rfl⟩ := List.exists_cons_of_ne_nil h0
      have hrest : rest = [] := by
        simpa using hlen
      subst hrest
      simp at hmem
      simp [hmem]

/-- C10 witness: the amended invariant at the concrete prior state where
"All" is selected together with one other value. -/
theorem claim_C10_witness :
    Dashboard.remove_all_from_multiselect ["All", "x"] ≠ [] ∧
      ("All" ∈ Dashboard.remove_all_from_multiselect ["All", "x"] →
        Dashboard.remove_all_from_multiselect ["All", "x"] = ["All"]) :=
  claim_C10_multiselect_invariant ["All", "x"] (by decide)

/-- C8: when every finding has the organization-account pseudo resource type
"AWS::::Account", the notifier performs zero webhook requests, and more
generally a message is only posted when some finding survives the exclusion
filter. -/
theorem claim_C8_no_webhook_when_filtered_empty (items : List S3Csv.Finding) :
    (items ≠ [] → (∀ i ∈ items, pyStrip i.resourceType = "AWS::::Account") →
      S3Csv.send_to_slack items = 0) ∧
    (items.filter (fun i => pyStrip i.resourceType != "AWS::::Account") = [] →
      S3Csv.send_to_slack items = 0) := by
  constructor
  · intro _ hall
    have hf : items.filter (fun i => pyStrip i.resourceType != "AWS::::Account") = [] := by
      refine List.filter_eq_nil_iff.mpr ?_
      intro a ha
      simp [hall a ha]
    simp [S3Csv.send_to_slack, hf]
  · intro hf
    simp [S3Csv.send_to_slack, hf]

/-- C8 witness: a concrete non-empty list of findings, all of the
organization-account pseudo-type, yields zero webhook requests. -/
theorem claim_C8_witness : S3Csv.send_to_slack [Witness.acctFinding] = 0 :=
  (claim_C8_no_webhook_when_filtered_empty [Witness.acctFinding]).1
    (by decide) (by decide)

/-- Extracting findings from n copies of the well-formed non-compliant row
yields n copies of its finding. -/
theorem parse_replicate_row0 (n : Nat) :
    S3Csv.parse_csv_for_non_compliant (List.replicate n Witness.row0) =
      List.replicate n Witness.f0 := by
  induction n with
  | zero => rfl
  | succ n ih =>
    rw [List.replicate_succ, List.replicate_succ]
    show (Witness.row0 :: _).filterMap S3Csv.rowToFinding = _
    rw [List.filterMap_cons,
      show S3Csv.rowToFinding Witness.row0 = some Witness.f0 from rfl]
    exact congrArg (Witness.f0 :: ·) ih

/-- C9: in every success result of process_s3_csv_to_slack, the reported
non_compliant_count is the total number of extracted findings while the
returned non_compliant_items list is the first 100 findings, so with more
than 100 findings the count exceeds the length of the returned list. -/
theorem claim_C9_result_cap (contents : Option (List S3Csv.S3Object))
    (body : String → List S3Csv.Row) (key : String) (cnt : Nat)
    (lst : List S3Csv.Finding)
    (h : S3Csv.process_s3_csv_to_slack contents body =
      S3Csv.ProcResult.success key cnt lst) :
    cnt = (S3Csv.parse_csv_for_non_compliant (body key)).length ∧
      lst = (S3Csv.parse_csv_for_non_compliant (body key)).take 100 ∧
      (100 < cnt → lst.length = 100 ∧ lst.length < cnt) := by
  unfold S3Csv.process_s3_csv_to_slack at h
  cases hg : S3Csv.get_latest_csv_file contents with
  | none => rw [hg] at h; exact absurd h (by simp)
  | some k =>
    rw [hg] at h
    simp only [S3Csv.ProcResult.success.injEq] at h
    obtain ⟨hk, hcnt, hlst⟩ := h
    subst hk
    refine ⟨hcnt.symm, hlst.symm, ?_⟩
    intro hlt
    rw [← hlst, List.length_take]
    omega

/-- C9 witness: with a bucket holding one CSV whose body decodes to 101
non-compliant rows, the success result reports count 101 while returning
only the first 100 findings. -/
theorem claim_C9_witness :
    101 = (S3Csv.parse_csv_for_non_compliant (Witness.bodyEx "r.csv")).length ∧
      List.replicate 100 Witness.f0 =
        (S3Csv.parse_csv_for_non_compliant (Witness.bodyEx "r.csv")).take 100 ∧
      (100 < 101 → (List.replicate 100 Witness.f0).length = 100 ∧
        (List.replicate 100 Witness.f0).length < 101) := by
  refine claim_C9_result_cap Witness.contentsEx Witness.bodyEx "r.csv" 101
    (List.replicate 100 Witness.f0) ?_
  rw [show S3Csv.process_s3_csv_to_slack Witness.contentsEx Witness.bodyEx =
      S3Csv.ProcResult.success "r.csv"
        (S3Csv.parse_csv_for_non_compliant (List.replicate 101 Witness.row0)).length
        ((S3Csv.parse_csv_for_non_compliant
          (List.replicate 101 Witness.row0)).take 100) from rfl]
  rw [parse_replicate_row0]
  simp [List.take_replicate]

/-- The Python max scan returns its initial best when nothing is strictly
larger, and otherwise the first element of the list strictly larger than
everything before it and at least everything after it: the first maximum
encountered. -/
theorem pyMax_spec (l : List S3Csv.S3Object) : ∀ best : S3Csv.S3Object,
    (S3Csv.pyMax best l = best ∧
      ∀ y ∈ l, y.LastModified ≤ best.LastModified) ∨
    (∃ l₁ o l₂, l = l₁ ++ o :: l₂ ∧ S3Csv.pyMax best l = o ∧
      best.LastModified < o.LastModified ∧
      (∀ y ∈ l₁, y.LastModified < o.LastModified) ∧
      (∀ y ∈ l, y.LastModified ≤ o.LastModified)) := by
  induction l with
  | nil => exact fun best => Or.inl ⟨rfl, by simp⟩
  | cons a rest ih =>
    intro best
    by_cases hab : best.LastModified < a.LastModified
    · have hstep : S3Csv.pyMax best (a :: rest) = S3Csv.pyMax a rest := by
        simp [S3Csv.pyMax, hab]
      rcases ih a with ⟨heq, hall⟩ | ⟨l₁, o, l₂, hdec, heq, hlt, hpre, hall⟩
      · refine Or.inr ⟨[], a, rest, rfl, hstep.trans heq, hab, by simp, ?_⟩
        intro y hy
        rcases List.mem_cons.mp hy with hy | hy
        · exact hy ▸ Nat.le_refl _
        · exact hall y hy
      · refine Or.inr ⟨a :: l₁, o, l₂, by rw [hdec, List.cons_append], hstep.trans heq,
          Nat.lt_trans hab hlt, ?_, ?_⟩
        · intro y hy
          rcases List.mem_cons.mp hy with hy | hy
          · exact hy ▸ hlt
          · exact hpre y hy
        · intro y hy
          rcases List.mem_cons.mp hy with hy | hy
          · exact hy ▸ Nat.le_of_lt hlt
          · exact hall y hy
    · have hstep : S3Csv.pyMax best (a :: rest) = S3Csv.pyMax best rest := by
        simp [S3Csv.pyMax, hab]
      have hba : a.LastModified ≤ best.LastModified := Nat.le_of_not_lt hab
      rcases ih best with ⟨heq, hall⟩ | ⟨l₁, o, l₂, hdec, heq, hlt, hpre, hall⟩
      · refine Or.inl ⟨hstep.trans heq, ?_⟩
        intro y hy
        rcases List.mem_cons.mp hy with hy | hy
        · exact hy ▸ hba
        · exact hall y hy
      · refine Or.inr ⟨a :: l₁, o, l₂, by rw [hdec, List.cons_append], hstep.trans heq, hlt, ?_, ?_⟩
        · intro y hy
          rcases List.mem_cons.mp hy with hy | hy
          · exact hy ▸ Nat.lt_of_le_of_lt hba hlt
          · exact hpre y hy
        · intro y hy
          rcases List.mem_cons.mp hy with hy | hy
          · exact hy ▸ Nat.le_of_lt (Nat.lt_of_le_of_lt hba hlt)
          · exact hall y hy

/-- C7: get_latest_csv_file returns none when the listing has no Contents or
no ".csv"-suffixed key, and otherwise returns the key of the first object,
among the ".csv"-suffixed ones, achieving the maximum last-modified
timestamp (ties broken by the first maximum encountered). -/
theorem claim_C7_latest_csv (contents : Option (List S3Csv.S3Object)) :
    (contents = none → S3Csv.get_latest_csv_file contents = none) ∧
    (∀ objs, contents = some objs →
      (objs.filter (fun ob => ".csv".data.isSuffixOf ob.Key.data) = [] →
        S3Csv.get_latest_csv_file contents = none) ∧
      (∀ k, S3Csv.get_latest_csv_file contents = some k →
        ∃ l₁ o l₂,
          objs.filter (fun ob => ".csv".data.isSuffixOf ob.Key.data) =
            l₁ ++ o :: l₂ ∧
          k = o.Key ∧
          (∀ y ∈ l₁, y.LastModified < o.LastModified) ∧
          (∀ y ∈ objs.filter (fun ob => ".csv".data.isSuffixOf ob.Key.data),
            y.LastModified ≤ o.LastModified))) := by
  constructor
  · intro h
    subst h
    rfl
  · intro objs h
    subst h
    cases hcs : objs.filter (fun ob => ".csv".data.isSuffixOf ob.Key.data) with
    | nil =>
      constructor
      · intro _
        simp [S3Csv.get_latest_csv_file, hcs]
      · intro k hk
        rw [show S3Csv.get_latest_csv_file (some objs) = none by
          simp [S3Csv.get_latest_csv_file, hcs]] at hk
        exact absurd hk (by simp)
    | cons x xs =>
      constructor
      · intro he
        exact absurd he (by simp)
      · intro k hk
        have hk2 : k = (S3Csv.pyMax x xs).Key := by
          rw [show S3Csv.get_latest_csv_file (some objs) =
            some (S3Csv.pyMax x xs).Key by
              simp [S3Csv.get_latest_csv_file, hcs]] at hk
          exact (Option.some.injEq _ _ ▸ hk).symm
        rcases pyMax_spec xs x with ⟨heq, hall⟩ | ⟨l₁, o, l₂, hdec, heq, hlt, hpre, hall⟩
        · refine ⟨[], x, xs, rfl, by rw [hk2, heq], by simp, ?_⟩
          intro y hy
          rcases List.mem_cons.mp hy with hy | hy
          · exact hy ▸ Nat.le_refl _
          · exact hall y hy
        · refine ⟨x :: l₁, o, l₂, by rw [hdec, List.cons_append], by rw [hk2, heq], ?_, ?_⟩
          · intro y hy
            rcases List.mem_cons.mp hy with hy | hy
            · exact hy ▸ hlt
            · exact hpre y hy
          · intro y hy
            rcases List.mem_cons.mp hy with hy | hy
            · exact hy ▸ Nat.le_of_lt hlt
            · exact hall y hy

/-- C7 witness: on a concrete listing with two CSV objects and one non-CSV
object, the returned key "b.csv" is that of the CSV object with the maximum
last-modified timestamp. -/
theorem claim_C7_witness :
    ∃ l₁ o l₂,
      Witness.objsEx.filter (fun ob => ".csv".data.isSuffixOf ob.Key.data) =
        l₁ ++ o :: l₂ ∧
      "b.csv" = o.Key ∧
      (∀ y ∈ l₁, y.LastModified < o.LastModified) ∧
      (∀ y ∈ Witness.objsEx.filter (fun ob => ".csv".data.isSuffixOf ob.Key.data),
        y.LastModified ≤ o.LastModified) :=
  ((claim_C7_latest_csv (some Witness.objsEx)).2 Witness.objsEx rfl).2 "b.csv" rfl

/-- The attempt loop of safe_aws_call never executes a sleep, on any attempt
list and any behaviour of the wrapped operation: the source initialises
delay = 1 but the loop body contains no sleep call. -/
theorem safe_aws_call_go_sleeps {α : Type} (fn : Nat → S3Csv.CallResult α) :
    ∀ l : List Nat, (S3Csv.safe_aws_call_go fn l).2.2 = [] := by
  intro l
  induction l with
  | nil => rfl
  | cons a rest ih =>
    cases hfa : fn a with
    | ok v => simp [S3Csv.safe_aws_call_go, hfa]
    | err e =>
      cases e with
      | clientError code =>
        by_cases h1 : code = "AccessDeniedException"
        · simp [S3Csv.safe_aws_call_go, hfa, h1]
        · by_cases h2 : a = S3Csv.MAX_RETRIES
          · subst h2
            simp [S3Csv.safe_aws_call_go, hfa, h1]
          · simp [S3Csv.safe_aws_call_go, hfa, h1, h2, ih]
      | botoCoreError msg =>
        by_cases h2 : a = S3Csv.MAX_RETRIES
        · subst h2
          simp [S3Csv.safe_aws_call_go, hfa]
        · simp [S3Csv.safe_aws_call_go, hfa, h2, ih]

/-- C4 counterexample: a concrete operation that throttles on attempt 1 and
succeeds on attempt 2 is retried (the operation is called on attempts 1 and
2 and the call returns the success value), yet the list of sleeps executed
between the attempts is empty, contradicting the claimed fixed-delay sleep
between attempts. -/
theorem claim_C4_counterexample :
    S3Csv.safe_aws_call Witness.fnThrottleOnce =
      (some (Except.ok 42), [1, 2], ([] : List Nat)) := rfl

/-- C4 as amended: safe_aws_call retries every transient (non-access-denied)
error up to the fixed budget of MAX_RETRIES = 3 attempts with no sleep
between attempts (the delay variable of the source is initialised but
unused); exhausting the budget re-raises the last error to the caller;
access-denied client errors are raised immediately without retry. -/
theorem claim_C4_retry_contract {α : Type} (fn : Nat → S3Csv.CallResult α) :
    (S3Csv.safe_aws_call fn).2.2 = [] ∧
    (fn 1 = .err (.clientError "AccessDeniedException") →
      S3Csv.safe_aws_call fn =
        (some (.error (.clientError "AccessDeniedException")), [1], [])) ∧
    (∀ e v, fn 1 = .err e → e ≠ .clientError "AccessDeniedException" →
      fn 2 = .ok v →
      S3Csv.safe_aws_call fn = (some (.ok v), [1, 2], [])) ∧
    (∀ e1 e2 e3, fn 1 = .err e1 → fn 2 = .err e2 → fn 3 = .err e3 →
      e1 ≠ .clientError "AccessDeniedException" →
      e2 ≠ .clientError "AccessDeniedException" →
      S3Csv.safe_aws_call fn = (some (.error e3), [1, 2, 3], [])) := by
  have hr : List.range' 1 S3Csv.MAX_RETRIES = [1, 2, 3] := rfl
  refine ⟨safe_aws_call_go_sleeps fn _, ?_, ?_, ?_⟩
  · intro h1
    show S3Csv.safe_aws_call_go fn (List.range' 1 S3Csv.MAX_RETRIES) = _
    rw [hr]
    simp [S3Csv.safe_aws_call_go, h1]
  · intro e v h1 hne h2
    show S3Csv.safe_aws_call_go fn (List.range' 1 S3Csv.MAX_RETRIES) = _
    rw [hr]
    rcases e with c1 | m1
    · have hc1 : c1 ≠ "AccessDeniedException" := fun hc => hne (by rw [hc])
      simp [S3Csv.safe_aws_call_go, S3Csv.MAX_RETRIES, h1, h2, hc1]
    · simp [S3Csv.safe_aws_call_go, S3Csv.MAX_RETRIES, h1, h2]
  · intro e1 e2 e3 h1 h2 h3 hne1 hne2
    show S3Csv.safe_aws_call_go fn (List.range' 1 S3Csv.MAX_RETRIES) = _
    rw [hr]
    rcases e1 with c1 | m1 <;> rcases e2 with c2 | m2 <;> rcases e3 with c3 | m3
    all_goals
      first
      | (have hc1 : c1 ≠ "AccessDeniedException" := fun hc => hne1 (by rw [hc])
         have hc2 : c2 ≠ "AccessDeniedException" := fun hc => hne2 (by rw [hc])
         by_cases hc3 : c3 = "AccessDeniedException" <;>
           simp [S3Csv.safe_aws_call_go, S3Csv.MAX_RETRIES, h1, h2, h3, hc1, hc2, hc3])
      | (have hc1 : c1 ≠ "AccessDeniedException" := fun hc => hne1 (by rw [hc])
         have hc2 : c2 ≠ "AccessDeniedException" := fun hc => hne2 (by rw [hc])
         simp [S3Csv.safe_aws_call_go, S3Csv.MAX_RETRIES, h1, h2, h3, hc1, hc2])
      | (have hc1 : c1 ≠ "AccessDeniedException" := fun hc => hne1 (by rw [hc])
         by_cases hc3 : c3 = "AccessDeniedException" <;>
           simp [S3Csv.safe_aws_call_go, S3Csv.MAX_RETRIES, h1, h2, h3, hc1, hc3])
      | (have hc1 : c1 ≠ "AccessDeniedException" := fun hc => hne1 (by rw [hc])
         simp [S3Csv.safe_aws_call_go, S3Csv.MAX_RETRIES, h1, h2, h3, hc1])
      | (have hc2 : c2 ≠ "AccessDeniedException" := fun hc => hne2 (by rw [hc])
         by_cases hc3 : c3 = "AccessDeniedException" <;>
           simp [S3Csv.safe_aws_call_go, S3Csv.MAX_RETRIES, h1, h2, h3, hc2, hc3])
      | (have hc2 : c2 ≠ "AccessDeniedException" := fun hc => hne2 (by rw [hc])
         simp [S3Csv.safe_aws_call_go, S3Csv.MAX_RETRIES, h1, h2, h3, hc2])
      | (by_cases hc3 : c3 = "AccessDeniedException" <;>
           simp [S3Csv.safe_aws_call_go, S3Csv.MAX_RETRIES, h1, h2, h3, hc3])
      | simp [S3Csv.safe_aws_call_go, S3Csv.MAX_RETRIES, h1, h2, h3]

/-- C4 witness: the amended contract applied to a concrete operation hitting
one BotoCoreError and then succeeding: one retry, success, no sleep. -/
theorem claim_C4_witness :
    S3Csv.safe_aws_call Witness.fnBotoOnce =
      (some (Except.ok 7), [1, 2], ([] : List Nat)) :=
  (claim_C4_retry_contract Witness.fnBotoOnce).2.2.1
    (.botoCoreError "timeout") 7 rfl (by simp) rfl

/-- C5: the handler routing sends a success callback without invoking the
reconciler for every Delete event, and a failure callback without invoking
the reconciler for every unrecognized request type, whatever outcome the
reconciler would have produced. -/
theorem claim_C5_handler_routing (outcome : Int) :
    Permissions.lambda_handler "Delete" outcome =
      (some Permissions.CfnStatus.SUCCESS, false) ∧
    (∀ rt : String, rt ≠ "Create" → rt ≠ "Update" → rt ≠ "Delete" →
      rt ≠ "Cron" →
      Permissions.lambda_handler rt outcome =
        (some Permissions.CfnStatus.FAILED, false)) := by
  constructor
  · simp [Permissions.lambda_handler]
  · intro rt h1 h2 h3 h4
    simp [Permissions.lambda_handler, h1, h2, h3, h4]

/-- C5 witness: the routing at a Delete event and at the concrete
unrecognized request type "Unknown". -/
theorem claim_C5_witness :
    Permissions.lambda_handler "Delete" 1 =
      (some Permissions.CfnStatus.SUCCESS, false) ∧
    Permissions.lambda_handler "Unknown" 1 =
      (some Permissions.CfnStatus.FAILED, false) :=
  ⟨(claim_C5_handler_routing 1).1,
    (claim_C5_handler_routing 1).2 "Unknown"
      (by decide) (by decide) (by decide) (by decide)⟩

/-- C3: on a non-throttling failure of the listing call, and on an
empty/absent listing response, the account lister returns the empty
sequence at whatever point of the pagination the failure occurs (any
accumulated pages are discarded, never an exception), and whenever the
lister returns the empty sequence the reconciler invocation yields outcome
0 with zero add calls rather than a Lambda error. -/
theorem claim_C3_lister_degrades (code : String)
    (h : code ≠ "TooManyRequestsException") :
    (∀ rest acc, Permissions.get_accounts_go
        (Permissions.ListResp.clientError code :: rest) acc = []) ∧
    (∀ rest acc, Permissions.get_accounts_go
        (Permissions.ListResp.absent :: rest) acc = []) ∧
    (∀ responses, Permissions.get_accounts responses = [] →
      ∀ env, Permissions.apply_lambda_permissions env
        (Permissions.get_accounts responses) = (0, [])) := by
  refine ⟨?_, ?_, ?_⟩
  · intro rest acc
    simp [Permissions.get_accounts_go, h]
  · intro rest acc
    simp [Permissions.get_accounts_go]
  · intro responses hresp env
    rw [hresp]
    simp [Permissions.apply_lambda_permissions]

/-- C3 witness: an access-denied first listing call yields the empty account
sequence, an absent response does too, and the reconciler then returns
outcome 0 with no add calls. -/
theorem claim_C3_witness :
    Permissions.get_accounts_go
        [Permissions.ListResp.clientError "AccessDeniedException"] [] = [] ∧
    Permissions.get_accounts_go [Permissions.ListResp.absent] [] = [] ∧
    Permissions.apply_lambda_permissions Witness.envOk
      (Permissions.get_accounts Witness.responsesDenied) = (0, []) := by
  have hmain := claim_C3_lister_degrades "AccessDeniedException" (by decide)
  exact ⟨hmain.1 [] [], hmain.2.1 [] [],
    hmain.2.2 Witness.responsesDenied rfl Witness.envOk⟩

/-- For a non-empty account listing, the reconciler outcome is 1 exactly
when every not-yet-covered account received a successful add. -/
theorem apply_fst_eq_one (env : Permissions.ReconEnv)
    (accounts : List Permissions.Account) (hne : accounts ≠ []) :
    ((Permissions.apply_lambda_permissions env accounts).1 = 1 ↔
      ∀ a ∈ Permissions.toAddList env accounts,
        (Permissions.try_add env a).1 = true) := by
  unfold Permissions.apply_lambda_permissions
  rw [if_neg (by simpa [List.isEmpty_iff] using hne)]
  cases hbv : ((Permissions.toAddList env accounts).map
      (fun a => Permissions.try_add env a)).all (fun r => r.1) with
  | false =>
    simp only [hbv, if_false, Bool.false_eq_true]
    constructor
    · intro hcontra
      exact absurd hcontra (by decide)
    · intro hR
      have hall : ((Permissions.toAddList env accounts).map
          (fun a => Permissions.try_add env a)).all (fun r => r.1) = true := by
        refine List.all_eq_true.mpr ?_
        intro r hr
        obtain ⟨a, ha, rfl⟩ := List.mem_map.mp hr
        exact hR a ha
      rw [hbv] at hall
      exact absurd hall (by decide)
  | true =>
    simp only [hbv, if_true]
    constructor
    · intro _ a ha
      exact List.all_eq_true.mp hbv _ (List.mem_map_of_mem _ ha)
    · intro _
      trivial

/-- For a non-empty account listing, the reconciler outcome is -1 exactly
when some not-yet-covered account hit a permanent failure. -/
theorem apply_fst_eq_neg_one (env : Permissions.ReconEnv)
    (accounts : List Permissions.Account) (hne : accounts ≠ []) :
    ((Permissions.apply_lambda_permissions env accounts).1 = -1 ↔
      ∃ a ∈ Permissions.toAddList env accounts,
        (Permissions.try_add env a).1 = false) := by
  unfold Permissions.apply_lambda_permissions
  rw [if_neg (by simpa [List.isEmpty_iff] using hne)]
  cases hbv : ((Permissions.toAddList env accounts).map
      (fun a => Permissions.try_add env a)).all (fun r => r.1) with
  | false =>
    simp only [hbv, if_false, Bool.false_eq_true]
    constructor
    · intro _
      have hnall : ¬ (∀ r ∈ (Permissions.toAddList env accounts).map
          (fun a => Permissions.try_add env a), r.1 = true) := by
        intro hcontra
        rw [List.all_eq_true.mpr hcontra] at hbv
        exact absurd hbv (by decide)
      push_neg at hnall
      obtain ⟨r, hr, hrf⟩ := hnall
      obtain ⟨a, ha, rfl⟩ := List.mem_map.mp hr
      exact ⟨a, ha, by simpa using hrf⟩
    · intro _
      trivial
  | true =>
    simp only [hbv, if_true]
    constructor
    · intro hcontra
      exact absurd hcontra (by decide)
    · rintro ⟨a, ha, haf⟩
      have := List.all_eq_true.mp hbv _ (List.mem_map_of_mem _ ha)
      rw [haf] at this
      exact absurd this (by decide)

/-- Membership in the not-yet-covered list is membership in the listing
together with a false coverage check. -/
theorem mem_toAddList (env : Permissions.ReconEnv)
    (accounts : List Permissions.Account) (a : Permissions.Account) :
    a ∈ Permissions.toAddList env accounts ↔
      a ∈ accounts ∧
        Permissions.coveredBy env.pfx (env.policy.getD []) a = false := by
  unfold Permissions.toAddList
  rw [List.mem_filter]
  constructor
  · rintro ⟨ha, hb⟩
    refine ⟨ha, ?_⟩
    simpa using hb
  · rintro ⟨ha, hb⟩
    refine ⟨ha, ?_⟩
    simp [hb]

/-- C1: the reconciler outcome is exactly tri-state. For an empty account
list it is 0 with zero add calls. For a non-empty list it is 1 exactly when
every account was already covered or received its statement, and -1 exactly
when some account hit a permanent failure; a non-throttling API error on
the first attempt and a success response missing the Statement confirmation
field are both such permanent failures. -/
theorem claim_C1_tristate (env : Permissions.ReconEnv)
    (accounts : List Permissions.Account) :
    (accounts = [] →
      Permissions.apply_lambda_permissions env accounts = (0, [])) ∧
    (accounts ≠ [] →
      ((Permissions.apply_lambda_permissions env accounts).1 = 1 ↔
        ∀ a ∈ accounts,
          Permissions.coveredBy env.pfx (env.policy.getD []) a = true ∨
            (Permissions.try_add env a).1 = true) ∧
      ((Permissions.apply_lambda_permissions env accounts).1 = -1 ↔
        ∃ a ∈ accounts,
          Permissions.coveredBy env.pfx (env.policy.getD []) a = false ∧
            (Permissions.try_add env a).1 = false)) ∧
    (∀ a : Permissions.Account, ∀ c,
      env.addResult a.Id 1 = Permissions.AddOutcome.apiError c →
      (Permissions.try_add env a).1 = false) ∧
    (∀ a : Permissions.Account,
      env.addResult a.Id 1 = Permissions.AddOutcome.ok false →
      (Permissions.try_add env a).1 = false) := by
  refine ⟨?_, ?_, ?_, ?_⟩
  · intro h
    subst h
    rfl
  · intro hne
    constructor
    · rw [apply_fst_eq_one env accounts hne]
      constructor
      · intro hall a ha
        cases hcov : Permissions.coveredBy env.pfx (env.policy.getD []) a with
        | true => exact Or.inl rfl
        | false =>
          exact Or.inr (hall a ((mem_toAddList env accounts a).mpr ⟨ha, hcov⟩))
      · intro hall a ha
        obtain ⟨hmem, hcov⟩ := (mem_toAddList env accounts a).mp ha
        rcases hall a hmem with hc | hok
        · rw [hcov] at hc
          exact absurd hc (by decide)
        · exact hok
    · rw [apply_fst_eq_neg_one env accounts hne]
      constructor
      · rintro ⟨a, ha, haf⟩
        obtain ⟨hmem, hcov⟩ := (mem_toAddList env accounts a).mp ha
        exact ⟨a, hmem, hcov, haf⟩
      · rintro ⟨a, ha, hcov, haf⟩
        exact ⟨a, (mem_toAddList env accounts a).mpr ⟨ha, hcov⟩, haf⟩
  · intro a c h
    show (Permissions.try_add_go env a.Id 1 2).1 = false
    simp [Permissions.try_add_go, h]
  · intro a h
    show (Permissions.try_add_go env a.Id 1 2).1 = false
    simp [Permissions.try_add_go, h]

/-- C1 witness: the tri-state contract at concrete inputs: the empty listing
yields (0, no calls), and for a concrete one-account listing with an empty
policy and successful adds the outcome-1 characterisation holds. -/
theorem claim_C1_witness :
    Permissions.apply_lambda_permissions Witness.envOk [] = (0, []) ∧
      ((Permissions.apply_lambda_permissions Witness.envOk
          Witness.accountsEx).1 = 1 ↔
        ∀ a ∈ Witness.accountsEx,
          Permissions.coveredBy Witness.envOk.pfx
              (Witness.envOk.policy.getD []) a = true ∨
            (Permissions.try_add Witness.envOk a).1 = true) :=
  ⟨(claim_C1_tristate Witness.envOk []).1 rfl,
    ((claim_C1_tristate Witness.envOk Witness.accountsEx).2.1
      (by simp [Witness.accountsEx])).1⟩

/-- C2: the reconciler is idempotent. After a run over a non-empty listing
in which every account succeeded (outcome 1), a second run against the
resulting policy skips every account of the same listing (the
not-yet-covered list is empty, each account being matched by statement ID
or by the source-account condition of a statement) and so performs zero
add-permission calls, returning outcome 1 again. -/
theorem claim_C2_idempotent (env : Permissions.ReconEnv)
    (accounts : List Permissions.Account)
    (h : (Permissions.apply_lambda_permissions env accounts).1 = 1) :
    Permissions.toAddList
        { env with policy := some (Permissions.policyAfter env accounts) }
        accounts = [] ∧
      Permissions.apply_lambda_permissions
        { env with policy := some (Permissions.policyAfter env accounts) }
        accounts = (1, []) := by
  by_cases hne : accounts = []
  · exfalso
    rw [hne] at h
    simp [Permissions.apply_lambda_permissions] at h
  · have hok : ∀ a ∈ Permissions.toAddList env accounts,
        (Permissions.try_add env a).1 = true :=
      (apply_fst_eq_one env accounts hne).mp h
    have hcov2 : ∀ a ∈ accounts,
        Permissions.coveredBy env.pfx (Permissions.policyAfter env accounts)
          a = true := by
      intro a ha
      cases hc : Permissions.coveredBy env.pfx (env.policy.getD []) a with
      | true =>
        unfold Permissions.coveredBy at hc ⊢
        unfold Permissions.policyAfter
        rw [List.any_append, hc]
        rfl
      | false =>
        have hmem : a ∈ Permissions.toAddList env accounts :=
          (mem_toAddList env accounts a).mpr ⟨ha, hc⟩
        have hadd : (Permissions.try_add env a).1 = true := hok a hmem
        unfold Permissions.coveredBy Permissions.policyAfter
        refine List.any_eq_true.mpr ⟨Permissions.statementFor env.pfx a, ?_, ?_⟩
        · refine List.mem_append_right _ ?_
          exact List.mem_map_of_mem _
            (List.mem_filter.mpr ⟨hmem, by simp [hadd]⟩)
        · simp [Permissions.statementFor]
    have htoadd : Permissions.toAddList
        { env with policy := some (Permissions.policyAfter env accounts) }
        accounts = [] := by
      unfold Permissions.toAddList
      refine List.filter_eq_nil_iff.mpr ?_
      intro a ha
      simp [hcov2 a ha]
    refine ⟨htoadd, ?_⟩
    unfold Permissions.apply_lambda_permissions
    rw [if_neg (by simpa [List.isEmpty_iff] using hne)]
    rw [htoadd]
    rfl

/-- C2 witness: for a concrete one-account listing over an empty policy
with successful adds, the first run ends 1 and the second run over the
extended policy skips the account and performs zero add calls. -/
theorem claim_C2_witness :
    Permissions.toAddList
        { Witness.envOk with
            policy := some (Permissions.policyAfter Witness.envOk
              Witness.accountsEx) } Witness.accountsEx = [] ∧
      Permissions.apply_lambda_permissions
        { Witness.envOk with
            policy := some (Permissions.policyAfter Witness.envOk
              Witness.accountsEx) } Witness.accountsEx = (1, []) :=
  claim_C2_idempotent Witness.envOk Witness.accountsEx rfl
